import Mathlib

/-!
Shallow embedding of the pulse-schedule timeslot model and the pass-manager
flow controllers of this repository, with theorems settling the specified
properties.

Sources embedded:
* `qiskit/pulse/schedule/timeslots.py` (`Interval`, `Timeslot`,
  `TimeslotOccupancy`)
* `qiskit/pulse/schedule/pulse_schedule.py` (`Schedule.insert`, `append`,
  `end_time`, `duration`)
* `qiskit/passmanager/flow_controllers.py` (`FlowControllerLinear`,
  `DoWhileController`, `ConditionalController`, `FlowController`)
* `qiskit/transpiler/runningpassmanager.py` (`_replace_error` wrapping loop)

Python integers are modelled as `Int`; channels are identified by `Nat`
(any hashable value with equality works in the source); exceptions are
modelled with `Except`.
-/

namespace QiskitSpec

/-! ## Interval (`timeslots.py`) -/

/-- The state of a Python `Interval` object: the stored fields `_begin` and
`_end` (renamed `ibegin` / `iend`, `end` being reserved in Lean). -/
structure Interval where
  ibegin : Int
  iend : Int
deriving DecidableEq, Repr

/-- `Interval.__init__(begin, duration)`: stores `_begin = begin` and
`_end = begin + duration`, with no validation. -/
def Interval.ofBeginDuration (b d : Int) : Interval :=
  ⟨b, b + d⟩

/-- The `duration` property: `end - begin`. -/
def Interval.duration (i : Interval) : Int :=
  i.iend - i.ibegin

/-- `Interval.has_overlap`: the source returns `True` when
`self.begin < interval.end and interval.begin < self.end` and (implicitly)
`None` otherwise; modelled as the corresponding `Bool`. -/
def Interval.has_overlap (i j : Interval) : Bool :=
  decide (i.ibegin < j.iend) && decide (j.ibegin < i.iend)

/-- `Interval.shifted(time)`: `Interval(begin + time, duration)`. -/
def Interval.shifted (i : Interval) (time : Int) : Interval :=
  Interval.ofBeginDuration (i.ibegin + time) i.duration

/-! ## Timeslot and TimeslotOccupancy (`timeslots.py`) -/

/-- A `Timeslot` pairs an interval with a channel. -/
structure Timeslot where
  interval : Interval
  channel : Nat
deriving DecidableEq, Repr

/-- The per-channel interval table built by `TimeslotOccupancy.__init__`
(`self._table[channel]`), for the slots processed so far: intervals of the
slots on channel `ch`, in insertion order. -/
def channelIntervals (ts : List Timeslot) (ch : Nat) : List Interval :=
  (ts.filter (fun s => s.channel == ch)).map (fun s => s.interval)

/-- One constructor-loop step: does `slot` overlap some already-tabled
interval on its own channel? -/
def initConflict (slot : Timeslot) (prior : List Timeslot) : Bool :=
  (channelIntervals prior slot.channel).any (fun iv => slot.interval.has_overlap iv)

/-- The `TimeslotOccupancy.__init__` loop: processing `rest` with the slots
in `prior` already appended to the table, does some step raise
`PulseError`? -/
def initFailsAux : List Timeslot → List Timeslot → Bool
  | _, [] => false
  | prior, s :: rest => initConflict s prior || initFailsAux (prior ++ [s]) rest

/-- Exceptions raised by the pulse-schedule code: `PulseError` (from
`timeslots.py`) and `ScheduleError` (from `pulse_schedule.py`). -/
inductive PError where
  | pulseError (message : String)
  | scheduleError (message : String)
deriving DecidableEq, Repr

/-- The state of a constructed `TimeslotOccupancy`: its `_timeslots` list
(`_table` is derived by `channelIntervals`). -/
structure TimeslotOccupancy where
  timeslots : List Timeslot
deriving DecidableEq, Repr

/-- `TimeslotOccupancy.__init__`: raises `PulseError` when some slot
overlaps an earlier slot on the same channel, otherwise constructs. -/
def TimeslotOccupancy.make (ts : List Timeslot) : Except PError TimeslotOccupancy :=
  if initFailsAux [] ts then
    .error (.pulseError ("Cannot create TimeslotOccupancy from overlapped timeslots"))
  else
    .ok ⟨ts⟩

/-- `TimeslotOccupancy.is_mergeable_with(occupancy)`: every slot of the
argument is checked against the table entries on its channel; any overlap
gives `False`. -/
def TimeslotOccupancy.is_mergeable_with (self other : TimeslotOccupancy) : Bool :=
  other.timeslots.all (fun slot =>
    (channelIntervals self.timeslots slot.channel).all
      (fun iv => !(slot.interval.has_overlap iv)))

/-- `TimeslotOccupancy.merged(occupancy)`: rebuilds the timeslot lists and
constructs a new occupancy from their concatenation, re-running the
constructor validation. -/
def TimeslotOccupancy.merged (self other : TimeslotOccupancy) :
    Except PError TimeslotOccupancy :=
  TimeslotOccupancy.make (self.timeslots ++ other.timeslots)

/-- Shift every slot of a timeslot list by `time`. -/
def shiftSlots (ts : List Timeslot) (time : Int) : List Timeslot :=
  ts.map (fun s => ⟨s.interval.shifted time, s.channel⟩)

/-- `TimeslotOccupancy.shifted(time)`: raises `PulseError` for negative
`time`, otherwise constructs a new occupancy from the shifted slots. -/
def TimeslotOccupancy.shifted (self : TimeslotOccupancy) (time : Int) :
    Except PError TimeslotOccupancy :=
  if time < 0 then
    .error (.pulseError ("Cannot shift TimeslotOccupancy by negative time"))
  else
    TimeslotOccupancy.make (shiftSlots self.timeslots time)

/-- Two slots conflict when they share a channel and their intervals
overlap. -/
def conflictB (a b : Timeslot) : Bool :=
  a.channel == b.channel && a.interval.has_overlap b.interval

/-- An occupancy state is valid when the constructor would have accepted
its slot list. -/
def TimeslotOccupancy.valid (o : TimeslotOccupancy) : Prop :=
  initFailsAux [] o.timeslots = false

/-! ## Schedule (`pulse_schedule.py`) -/

/-- The capabilities `Schedule.insert` needs from a `Pulse`: its string
form (used in error messages), its `occupancy`, and its `duration()`. -/
structure PulseE where
  name : String
  occupancy : TimeslotOccupancy
  duration : Int
deriving DecidableEq, Repr

/-- The mutable state of a `Schedule` (root node, `t0 = 0`): the
`_children` list of `TimedPulse`s as `(t0, pulse)` pairs, and the
aggregate `_occupancy`. -/
structure ScheduleE where
  children : List (Int × PulseE)
  occupancy : TimeslotOccupancy
deriving DecidableEq, Repr

/-- `Schedule.insert(t0, pulse)`: shift the pulse occupancy, check
mergeability, and on success merge into the aggregate and append a child;
otherwise raise `ScheduleError` naming the pulse and the time. -/
def ScheduleE.insert (sched : ScheduleE) (t0 : Int) (pulse : PulseE) :
    Except PError ScheduleE :=
  match pulse.occupancy.shifted t0 with
  | .error e => .error e
  | .ok shifted =>
    if sched.occupancy.is_mergeable_with shifted then
      match sched.occupancy.merged shifted with
      | .error e => .error e
      | .ok merged => .ok { children := sched.children ++ [(t0, pulse)], occupancy := merged }
    else
      .error (.scheduleError
        ("Fail to insert " ++ pulse.name ++ " at " ++ toString t0 ++ " due to overlap"))

/-- Absolute end time of a direct child `(t0, pulse)` of the root:
`begin_time() + duration() = t0 + pulse.duration`. -/
def childEndTime (c : Int × PulseE) : Int :=
  c.1 + c.2.duration

/-- `Schedule.end_time()`: `max([child.end_time() ...], default=0)`. -/
def ScheduleE.end_time (sched : ScheduleE) : Int :=
  match sched.children.map childEndTime with
  | [] => 0
  | x :: xs => xs.foldl max x

/-- `Schedule.duration()`: `self.end_time()`. -/
def ScheduleE.duration (sched : ScheduleE) : Int :=
  sched.end_time

/-- `Schedule.append(pulse)`: insert at `end_time()`, re-raising a
`ScheduleError` with an append-specific message. -/
def ScheduleE.append (sched : ScheduleE) (pulse : PulseE) : Except PError ScheduleE :=
  match sched.insert sched.end_time pulse with
  | .ok s => .ok s
  | .error (.scheduleError _) =>
      .error (.scheduleError ("Fail to append " ++ pulse.name ++ " due to overlap"))
  | .error e => .error e

/-! ## Flow controllers (`flow_controllers.py`) -/

/-- Outcome of fully draining a controller's `iter_tasks` generator: either
the list of yielded tasks followed by normal termination, or the tasks
yielded before an exception together with the exception message. -/
inductive IterOut (α : Type) where
  | ok (yielded : List α)
  | error (yielded : List α) (message : String)
deriving DecidableEq, Repr

/-- `FlowControllerLinear.iter_tasks`: yields the task tuple once. -/
def linearIterTasks {α : Type} (tasks : List α) : IterOut α :=
  .ok tasks

/-- `ConditionalController.iter_tasks(property_set)`: evaluates the
condition on the current property set; yields all tasks when true,
nothing when false. -/
def conditionalIterTasks {α σ : Type} (tasks : List α) (condition : σ → Bool)
    (property_set : σ) : List α :=
  if condition property_set then tasks else []

/-- The `DoWhileController.iter_tasks` loop body. The caller runs the
yielded tasks between yields and mutates the property set; `do_while k`
is the value `self.do_while(property_set)` takes at the check after the
`(k+1)`-th repetition. `fuel` is the number of `range(max_iteration)`
steps left; when it runs out the generator raises `PassManagerError`. -/
def doWhileLoop {α : Type} (tasks : List α) (do_while : Nat → Bool)
    (max_iteration : Nat) : Nat → Nat → List α → IterOut α
  | _, 0, acc =>
    .error acc ("Maximum iteration reached. max_iteration=" ++ toString max_iteration)
  | k, fuel + 1, acc =>
    if do_while k then doWhileLoop tasks do_while max_iteration (k + 1) fuel (acc ++ tasks)
    else .ok (acc ++ tasks)

/-- `DoWhileController.iter_tasks`: reads
`max_iteration = self._options.get("max_iteration", 1000)` and runs the
bounded do-while loop. -/
def doWhileIterTasks {α : Type} (tasks : List α) (do_while : Nat → Bool)
    (options : Option Nat) : IterOut α :=
  doWhileLoop tasks do_while (options.getD 1000) 0 (options.getD 1000) []

/-- `tasks` repeated `n` times, flattened — the yield trace of `n` full
repetitions. -/
def repeatedTasks {α : Type} : Nat → List α → List α
  | 0, _ => []
  | n + 1, tasks => tasks ++ repeatedTasks n tasks

/-- Controller trees as built by `FlowController.controller_factory`:
a linear controller over base tasks, or a conditional / do-while
controller over child controllers with its predicate. -/
inductive CtrlE (σ : Type) : Type where
  | linear (tasks : List Nat)
  | conditionalC (children : List (CtrlE σ)) (condition : σ → Bool)
  | doWhileC (children : List (CtrlE σ)) (do_while : σ → Bool)

/-- The module-level registration order: `add_flow_controller("condition",
ConditionalController)` then `add_flow_controller("do_while",
DoWhileController)` leave `FlowController.hierarchy` as below. -/
def hierarchy : List String := ["condition", "do_while"]

/-- `FlowController.registered_controllers` after module load: alias
`"condition"` constructs a `ConditionalController`, alias `"do_while"` a
`DoWhileController`, each over the given children with the given
predicate. -/
def registered_controllers {σ : Type} (aliasName : String)
    (children : List (CtrlE σ)) (pred : σ → Bool) : CtrlE σ :=
  if aliasName = "condition" then .conditionalC children pred
  else .doWhileC children pred

/-- `FlowController.controller_factory(passes, options, **controllers)`
for a flat task list: wrap the tasks in a linear controller, then walk
`hierarchy` reversed and, for each alias supplied in `controllers`, wrap
the accumulated instance in that alias's controller class. -/
def controller_factory {σ : Type} (passes : List Nat)
    (controllers : List (String × (σ → Bool))) : CtrlE σ :=
  hierarchy.reverse.foldl
    (fun inst aliasName =>
      match controllers.find? (fun kv => kv.1 == aliasName) with
      | none => inst
      | some kv => registered_controllers aliasName [inst] kv.2)
    (CtrlE.linear passes)

/-- Discriminator: is the root of a controller tree a
`DoWhileController`? -/
def CtrlE.isDoWhile {σ : Type} : CtrlE σ → Bool
  | .doWhileC _ _ => true
  | _ => false

/-! ## RunningPassManager error translation (`runningpassmanager.py`) -/

/-- The exception kinds visible to the `_replace_error` wrapper:
`PassManagerError`, `TranspilerError`, and anything else. -/
inductive ExcE where
  | passManagerError (message : String)
  | transpilerError (message : String)
  | otherError (message : String)
deriving DecidableEq, Repr

/-- `_replace_error(meth)`: run the method; re-raise a `PassManagerError`
as a `TranspilerError` carrying `ex.message`; pass every other outcome
through unchanged. -/
def replace_error {α β : Type} (meth : α → Except ExcE β) : α → Except ExcE β :=
  fun a =>
    match meth a with
    | .error (.passManagerError m) => .error (.transpilerError m)
    | r => r

/-- `name.startswith("_")`: the one-character-prefix test, checking the
first character of the name. -/
def startsWithUnderscore (s : String) : Bool :=
  match s.data with
  | [] => false
  | c :: _ => c == Char.ofNat 95

/-- The module-level wrapping loop over
`inspect.getmembers(RunningPassManager, predicate=inspect.isfunction)`:
names starting with an underscore are skipped, every other method is
replaced by its `_replace_error` wrapper. -/
def wrapClassMethods {α β : Type} (methods : List (String × (α → Except ExcE β))) :
    List (String × (α → Except ExcE β)) :=
  methods.map (fun nm =>
    if startsWithUnderscore nm.1 then nm else (nm.1, replace_error nm.2))


/-! ### Concrete values used in witnesses -/

/-- A pulse occupying `[0,10)` on channel 0, with duration 10. -/
def pulseA : PulseE := ⟨"A", ⟨[⟨⟨0, 10⟩, 0⟩]⟩, 10⟩

/-- The empty schedule. -/
def emptySched : ScheduleE := ⟨[], ⟨[]⟩⟩

/-- The schedule holding `pulseA` at time 0. -/
def schedA : ScheduleE := ⟨[(0, pulseA)], ⟨[⟨⟨0, 10⟩, 0⟩]⟩⟩

/-- A method that always raises `PassManagerError("boom")`. -/
def pmFail : Nat → Except ExcE Nat := fun _ => .error (.passManagerError ("boom"))

/-! ### Characterization lemmas for the occupancy constructor -/

theorem has_overlap_symm (i j : Interval) : i.has_overlap j = j.has_overlap i := by
  simp only [Interval.has_overlap]
  exact Bool.and_comm _ _

theorem beq_nat_comm (m n : Nat) : (m == n) = (n == m) := by
  by_cases h : m = n
  · subst h; rfl
  · have h1 : (m == n) = false := beq_eq_false_iff_ne.mpr h
    have h2 : (n == m) = false := beq_eq_false_iff_ne.mpr (Ne.symm h)
    rw [h1, h2]

theorem conflictB_symm (a b : Timeslot) : conflictB a b = conflictB b a := by
  unfold conflictB
  rw [beq_nat_comm, has_overlap_symm]

theorem initConflict_eq_false (s : Timeslot) (prior : List Timeslot) :
    initConflict s prior = false ↔ ∀ p ∈ prior, conflictB s p = false := by
  unfold initConflict channelIntervals conflictB
  rw [List.any_eq_false]
  constructor
  · intro h p hp
    by_cases hc : s.channel = p.channel
    · have hmem : p.interval ∈
          (prior.filter (fun x => x.channel == s.channel)).map (fun x => x.interval) :=
        List.mem_map_of_mem _ (List.mem_filter.mpr ⟨hp, by simp [hc]⟩)
      have h2 := h _ hmem
      simp only [Bool.not_eq_true] at h2
      simp [h2]
    · have hc' : (s.channel == p.channel) = false := beq_eq_false_iff_ne.mpr hc
      simp [hc']
  · intro h iv hiv
    rcases List.mem_map.mp hiv with ⟨x, hx, rfl⟩
    rcases List.mem_filter.mp hx with ⟨hxmem, hxch⟩
    have h2 := h x hxmem
    have hch : (s.channel == x.channel) = true := by
      rw [beq_nat_comm]; exact hxch
    rw [hch, Bool.true_and] at h2
    simp [h2]

/-- The constructor loop succeeds iff no processed slot conflicts with a
prior slot and the remaining slots are pairwise conflict-free. -/
theorem initFailsAux_eq_false (rest : List Timeslot) : ∀ prior : List Timeslot,
    initFailsAux prior rest = false ↔
      ((∀ s ∈ rest, ∀ p ∈ prior, conflictB s p = false) ∧
        rest.Pairwise (fun a b => conflictB a b = false)) := by
  induction rest with
  | nil =>
    intro prior
    simp [initFailsAux]
  | cons s rest ih =>
    intro prior
    rw [show initFailsAux prior (s :: rest)
          = (initConflict s prior || initFailsAux (prior ++ [s]) rest) from rfl]
    rw [Bool.or_eq_false_iff, initConflict_eq_false, ih (prior ++ [s]),
      List.pairwise_cons]
    constructor
    · rintro ⟨h1, h2, h3⟩
      refine ⟨?_, ?_, h3⟩
      · intro u hu p hp
        rcases List.mem_cons.mp hu with rfl | hu'
        · exact h1 p hp
        · exact h2 u hu' p (List.mem_append.mpr (Or.inl hp))
      · intro t ht
        rw [conflictB_symm]
        exact h2 t ht s (List.mem_append.mpr (Or.inr (List.mem_singleton.mpr rfl)))
    · rintro ⟨h1, h2, h3⟩
      refine ⟨?_, ?_, h3⟩
      · intro p hp
        exact h1 s (List.mem_cons_self s rest) p hp
      · intro t ht p hp
        rcases List.mem_append.mp hp with hp' | hp'
        · exact h1 t (List.mem_cons_of_mem s ht) p hp'
        · rw [List.mem_singleton.mp hp', conflictB_symm]
          exact h2 t ht

/-- Constructor success is exactly pairwise absence of same-channel
overlap. -/
theorem initFails_iff (ts : List Timeslot) :
    initFailsAux [] ts = false ↔ ts.Pairwise (fun a b => conflictB a b = false) := by
  rw [initFailsAux_eq_false]
  simp

/-- Mergeability is exactly: no slot of `other` conflicts with a slot of
`self`. -/
theorem is_mergeable_iff (self other : TimeslotOccupancy) :
    self.is_mergeable_with other = true ↔
      ∀ a ∈ self.timeslots, ∀ b ∈ other.timeslots, conflictB a b = false := by
  unfold TimeslotOccupancy.is_mergeable_with
  rw [List.all_eq_true]
  constructor
  · intro h a ha b hb
    have h2 := h b hb
    rw [List.all_eq_true] at h2
    by_cases hc : a.channel = b.channel
    · have hmem : a.interval ∈ channelIntervals self.timeslots b.channel := by
        unfold channelIntervals
        exact List.mem_map_of_mem _ (List.mem_filter.mpr ⟨ha, by simp [hc]⟩)
      have h3 := h2 _ hmem
      simp only [Bool.not_eq_eq_eq_not, Bool.not_true] at h3
      unfold conflictB
      rw [has_overlap_symm] at h3
      simp [h3]
    · have hc' : (a.channel == b.channel) = false := beq_eq_false_iff_ne.mpr hc
      unfold conflictB
      simp [hc']
  · intro h b hb
    rw [List.all_eq_true]
    intro iv hiv
    unfold channelIntervals at hiv
    rcases List.mem_map.mp hiv with ⟨x, hx, rfl⟩
    rcases List.mem_filter.mp hx with ⟨hxmem, hxch⟩
    have h2 := h x hxmem b hb
    unfold conflictB at h2
    rw [hxch, Bool.true_and] at h2
    rw [has_overlap_symm] at h2
    simp [h2]

/-- Overlap of intervals is invariant under a common shift. -/
theorem has_overlap_shifted (i j : Interval) (t : Int) :
    (i.shifted t).has_overlap (j.shifted t) = i.has_overlap j := by
  unfold Interval.shifted Interval.ofBeginDuration Interval.has_overlap Interval.duration
  simp only
  have h1 : (i.ibegin + t < j.ibegin + t + (j.iend - j.ibegin)) ↔ i.ibegin < j.iend := by
    omega
  have h2 : (j.ibegin + t < i.ibegin + t + (i.iend - i.ibegin)) ↔ j.ibegin < i.iend := by
    omega
  rw [decide_eq_decide.mpr h1, decide_eq_decide.mpr h2]

theorem conflictB_shifted (a b : Timeslot) (t : Int) :
    conflictB ⟨a.interval.shifted t, a.channel⟩ ⟨b.interval.shifted t, b.channel⟩
      = conflictB a b := by
  unfold conflictB
  rw [has_overlap_shifted]

/-- Shifting a slot list preserves constructor validity. -/
theorem initFails_shiftSlots (ts : List Timeslot) (t : Int) :
    initFailsAux [] (shiftSlots ts t) = initFailsAux [] ts := by
  have hiff : initFailsAux [] (shiftSlots ts t) = false ↔ initFailsAux [] ts = false := by
    rw [initFails_iff, initFails_iff]
    unfold shiftSlots
    rw [List.pairwise_map]
    constructor
    · exact fun h => h.imp (fun hab => by rw [conflictB_shifted] at hab; exact hab)
    · exact fun h => h.imp (fun hab => by rw [conflictB_shifted]; exact hab)
  rcases h : initFailsAux [] ts with _ | _
  · rw [hiff.mpr h]
  · rcases h2 : initFailsAux [] (shiftSlots ts t) with _ | _
    · have h3 := hiff.mp h2
      rw [h] at h3
      simp at h3
    · rfl

/-! ### Helper lemmas about `max` over a list (for `end_time`) -/

theorem le_foldl_max (x : Int) (xs : List Int) : x ≤ xs.foldl max x := by
  induction xs generalizing x with
  | nil => exact le_refl x
  | cons y ys ih => exact le_trans (le_max_left x y) (ih (max x y))

theorem mem_le_foldl_max (y : Int) (xs : List Int) : ∀ x : Int, y ∈ xs →
    y ≤ xs.foldl max x := by
  induction xs with
  | nil => intro x hy; cases hy
  | cons z zs ih =>
    intro x hy
    rcases List.mem_cons.mp hy with rfl | hy'
    · exact le_trans (le_max_right x y) (le_foldl_max (max x y) zs)
    · exact ih (max x z) hy'

theorem foldl_max_mem (xs : List Int) : ∀ x : Int,
    xs.foldl max x = x ∨ xs.foldl max x ∈ xs := by
  induction xs with
  | nil => intro x; exact Or.inl rfl
  | cons y ys ih =>
    intro x
    rcases ih (max x y) with h | h
    · rcases max_cases x y with ⟨he, _⟩ | ⟨he, _⟩
      · left
        rw [show (y :: ys).foldl max x = ys.foldl max (max x y) from rfl, h, he]
      · right
        rw [show (y :: ys).foldl max x = ys.foldl max (max x y) from rfl, h, he]
        exact List.mem_cons_self y ys
    · right
      exact List.mem_cons_of_mem y h

/-! ## Supporting lemmas for the claim theorems -/

theorem make_error_iff (ts : List Timeslot) :
    (∃ msg, TimeslotOccupancy.make ts = .error (.pulseError msg)) ↔
      initFailsAux [] ts = true := by
  unfold TimeslotOccupancy.make
  rcases h : initFailsAux [] ts with _ | _
  · simp
  · simp

theorem not_pairwise_iff_pair (ts : List Timeslot) :
    ¬ ts.Pairwise (fun a b => conflictB a b = false) ↔
      ∃ (i j : Nat) (hi : i < ts.length) (hj : j < ts.length), i < j ∧
        ts[i].channel = ts[j].channel ∧
        ts[i].interval.has_overlap ts[j].interval = true := by
  rw [List.pairwise_iff_getElem]
  push_neg
  constructor
  · rintro ⟨i, j, hi, hj, hij, hc⟩
    have hct : conflictB ts[i] ts[j] = true := by
      simpa using hc
    unfold conflictB at hct
    rw [Bool.and_eq_true] at hct
    exact ⟨i, j, hi, hj, hij, beq_iff_eq.mp hct.1, hct.2⟩
  · rintro ⟨i, j, hi, hj, hij, hch, hov⟩
    refine ⟨i, j, hi, hj, hij, ?_⟩
    have hct : conflictB ts[i] ts[j] = true := by
      unfold conflictB
      rw [Bool.and_eq_true]
      exact ⟨beq_iff_eq.mpr hch, hov⟩
    simp [hct]

theorem merge_valid (self other : TimeslotOccupancy) (h1 : self.valid) (h2 : other.valid)
    (hm : self.is_mergeable_with other = true) :
    TimeslotOccupancy.make (self.timeslots ++ other.timeslots) =
      .ok ⟨self.timeslots ++ other.timeslots⟩ := by
  unfold TimeslotOccupancy.make
  have hval : initFailsAux [] (self.timeslots ++ other.timeslots) = false := by
    rw [initFails_iff, List.pairwise_append]
    refine ⟨(initFails_iff _).mp h1, (initFails_iff _).mp h2, ?_⟩
    exact fun a ha b hb => (is_mergeable_iff self other).mp hm a ha b hb
  rw [hval]
  simp

theorem zero_zero_no_overlap (z i : Interval) (hz : z.duration = 0) (hi : i.duration = 0) :
    z.has_overlap i = false := by
  unfold Interval.duration at hz hi
  by_cases h : z.ibegin < i.iend
  · have h2 : ¬ i.ibegin < z.iend := by omega
    simp [Interval.has_overlap, h2]
  · simp [Interval.has_overlap, h]

theorem doWhileLoop_true (α : Type) (tasks : List α) (m : Nat) :
    ∀ (fuel k : Nat) (acc : List α),
      doWhileLoop tasks (fun _ => true) m k fuel acc =
        .error (acc ++ repeatedTasks fuel tasks)
          ("Maximum iteration reached. max_iteration=" ++ toString m) := by
  intro fuel
  induction fuel with
  | zero =>
    intro k acc
    simp [doWhileLoop, repeatedTasks]
  | succ n ih =>
    intro k acc
    rw [show doWhileLoop tasks (fun _ => true) m k (n + 1) acc
        = doWhileLoop tasks (fun _ => true) m (k + 1) n (acc ++ tasks) from rfl]
    rw [ih (k + 1) (acc ++ tasks)]
    simp [repeatedTasks]

/-! ## Claim theorems -/

/-- Claim C5: `Interval.has_overlap` implements half-open overlap
semantics: `a.has_overlap b` is true iff `a.begin < b.end` and
`b.begin < a.end`; intervals that merely touch at an endpoint do not
overlap, so `Interval(0,10).has_overlap(Interval(10,5))` is false while
`Interval(0,10).has_overlap(Interval(9,5))` is true. -/
theorem has_overlap_halfopen (a b : Interval) :
    (a.has_overlap b = true ↔ (a.ibegin < b.iend ∧ b.ibegin < a.iend)) ∧
    (Interval.ofBeginDuration 0 10).has_overlap (Interval.ofBeginDuration 10 5) = false ∧
    (Interval.ofBeginDuration 0 10).has_overlap (Interval.ofBeginDuration 9 5) = true := by
  refine ⟨?_, by decide, by decide⟩
  unfold Interval.has_overlap
  simp

/-- Claim C6 counterexample: `Interval.__init__` performs no validation,
so `Interval(0, -1)` is an interval obtained from the constructor whose
end is strictly less than its begin, contradicting the claim that no such
interval is obtainable. -/
theorem interval_negative_duration_cex :
    (Interval.ofBeginDuration 0 (-1)).iend < (Interval.ofBeginDuration 0 (-1)).ibegin := by
  decide

/-- Claim C6 (amended): an `Interval(begin, duration)` always satisfies
`end = begin + duration` and `duration = end - begin`; whenever the
supplied duration is nonnegative (zero allowed, an instantaneous event)
the interval satisfies `begin ≤ end`, and `shifted` preserves the
duration and hence that invariant — but the constructor validates
nothing, so a negative duration yields `end < begin`. -/
theorem interval_ofBeginDuration_amended (b d : Int) (hd : 0 ≤ d) (t : Int) :
    (Interval.ofBeginDuration b d).iend = (Interval.ofBeginDuration b d).ibegin + d ∧
    (Interval.ofBeginDuration b d).duration = d ∧
    (Interval.ofBeginDuration b d).ibegin ≤ (Interval.ofBeginDuration b d).iend ∧
    ((Interval.ofBeginDuration b d).shifted t).duration = d ∧
    ((Interval.ofBeginDuration b d).shifted t).ibegin
      ≤ ((Interval.ofBeginDuration b d).shifted t).iend := by
  unfold Interval.shifted Interval.ofBeginDuration Interval.duration
  dsimp only
  omega

/-- Claim C6 witness: the amended statement at `begin = 2`,
`duration = 3`, `shift = 1`. -/
theorem interval_ofBeginDuration_amended_witness :
    (Interval.ofBeginDuration 2 3).iend = (Interval.ofBeginDuration 2 3).ibegin + 3 ∧
    (Interval.ofBeginDuration 2 3).duration = 3 ∧
    (Interval.ofBeginDuration 2 3).ibegin ≤ (Interval.ofBeginDuration 2 3).iend ∧
    ((Interval.ofBeginDuration 2 3).shifted 1).duration = 3 ∧
    ((Interval.ofBeginDuration 2 3).shifted 1).ibegin
      ≤ ((Interval.ofBeginDuration 2 3).shifted 1).iend :=
  interval_ofBeginDuration_amended 2 3 (by decide) 1

/-- Claim C10 counterexample: a zero-duration interval strictly inside a
longer interval does overlap it — `Interval(5,0).has_overlap(Interval(0,10))`
is true — and consequently `is_mergeable_with` does reject a commitment
consisting only of the zero-duration timeslot `[5,5)` against an occupancy
holding `[0,10)` on the same channel. -/
theorem zero_duration_overlap_cex :
    (Interval.ofBeginDuration 5 0).has_overlap (Interval.ofBeginDuration 0 10) = true ∧
    TimeslotOccupancy.is_mergeable_with ⟨[⟨⟨0, 10⟩, 0⟩]⟩ ⟨[⟨⟨5, 5⟩, 0⟩]⟩ = false := by
  exact ⟨by decide, by decide⟩

/-- Claim C10 (amended): two zero-duration intervals never overlap (in
either order), so an occupancy consisting only of zero-duration timeslots
is always constructible — arbitrarily many at the same time on the same
channel — and `is_mergeable_with` never rejects a commitment of
zero-duration timeslots against an occupancy that itself holds only
zero-duration timeslots. (A zero-duration interval strictly inside a
positive-duration one does overlap it, so the unrestricted claim fails.) -/
theorem zero_duration_mergeable_amended (z i : Interval)
    (hz : z.duration = 0) (hi : i.duration = 0)
    (selfT otherT : List Timeslot)
    (hself : ∀ s ∈ selfT, s.interval.duration = 0)
    (hother : ∀ s ∈ otherT, s.interval.duration = 0) :
    z.has_overlap i = false ∧ i.has_overlap z = false ∧
    TimeslotOccupancy.make selfT = .ok ⟨selfT⟩ ∧
    TimeslotOccupancy.is_mergeable_with ⟨selfT⟩ ⟨otherT⟩ = true := by
  refine ⟨zero_zero_no_overlap z i hz hi, zero_zero_no_overlap i z hi hz, ?_, ?_⟩
  · unfold TimeslotOccupancy.make
    have hval : initFailsAux [] selfT = false := by
      rw [initFails_iff, List.pairwise_iff_getElem]
      intro a b ha hb _
      unfold conflictB
      rw [zero_zero_no_overlap _ _ (hself _ (List.getElem_mem ha))
        (hself _ (List.getElem_mem hb))]
      simp
    rw [hval]
    simp
  · rw [is_mergeable_iff]
    intro a ha b hb
    unfold conflictB
    rw [zero_zero_no_overlap _ _ (hself a ha) (hother b hb)]
    simp

/-- Claim C10 witness: the amended statement at concrete zero-duration
intervals and occupancies, with two identical zero-duration slots on one
channel. -/
theorem zero_duration_mergeable_amended_witness :
    (Interval.mk 3 3).has_overlap (Interval.mk 7 7) = false ∧
    (Interval.mk 7 7).has_overlap (Interval.mk 3 3) = false ∧
    TimeslotOccupancy.make [⟨⟨2, 2⟩, 0⟩, ⟨⟨2, 2⟩, 0⟩] = .ok ⟨[⟨⟨2, 2⟩, 0⟩, ⟨⟨2, 2⟩, 0⟩]⟩ ∧
    TimeslotOccupancy.is_mergeable_with ⟨[⟨⟨2, 2⟩, 0⟩, ⟨⟨2, 2⟩, 0⟩]⟩ ⟨[⟨⟨2, 2⟩, 0⟩]⟩ = true :=
  zero_duration_mergeable_amended ⟨3, 3⟩ ⟨7, 7⟩ (by decide) (by decide)
    [⟨⟨2, 2⟩, 0⟩, ⟨⟨2, 2⟩, 0⟩] [⟨⟨2, 2⟩, 0⟩] (by decide) (by decide)

/-- Claim C4: `TimeslotOccupancy` construction fails with a `PulseError`
exactly when two timeslots on the same channel have overlapping intervals
(timeslots with equal intervals on different channels are accepted, as the
characterization requires equal channels), and `merged` is construction
over the union of the timeslot lists, so it re-validates the invariant and
fails exactly the same way when the union contains a same-channel
overlap. -/
theorem occupancy_invariant_merged_revalidates (ts : List Timeslot)
    (o1 o2 : TimeslotOccupancy) :
    ((∃ msg, TimeslotOccupancy.make ts = .error (.pulseError msg)) ↔
      ∃ (i j : Nat) (hi : i < ts.length) (hj : j < ts.length), i < j ∧
        ts[i].channel = ts[j].channel ∧
        ts[i].interval.has_overlap ts[j].interval = true) ∧
    o1.merged o2 = TimeslotOccupancy.make (o1.timeslots ++ o2.timeslots) ∧
    ((∃ msg, o1.merged o2 = .error (.pulseError msg)) ↔
      ∃ (i j : Nat) (hi : i < (o1.timeslots ++ o2.timeslots).length)
        (hj : j < (o1.timeslots ++ o2.timeslots).length), i < j ∧
        (o1.timeslots ++ o2.timeslots)[i].channel
          = (o1.timeslots ++ o2.timeslots)[j].channel ∧
        (o1.timeslots ++ o2.timeslots)[i].interval.has_overlap
          ((o1.timeslots ++ o2.timeslots)[j].interval) = true) := by
  have key : ∀ us : List Timeslot,
      (∃ msg, TimeslotOccupancy.make us = .error (.pulseError msg)) ↔
        ∃ (i j : Nat) (hi : i < us.length) (hj : j < us.length), i < j ∧
          us[i].channel = us[j].channel ∧
          us[i].interval.has_overlap us[j].interval = true := by
    intro us
    rw [make_error_iff, ← not_pairwise_iff_pair, ← initFails_iff]
    rcases h : initFailsAux [] us with _ | _ <;> simp [h]
  exact ⟨key ts, rfl, key (o1.timeslots ++ o2.timeslots)⟩

/-- Claim C3: `Schedule.insert(t0, pulse)` evaluates mergeability of the
pulse occupancy shifted by `t0` against the aggregate occupancy; when
mergeable it returns the schedule with the merged aggregate and the pulse
appended as a new child at relative time `t0`; when not mergeable it
raises a `ScheduleError` naming the pulse and the proposed time and
produces no modified schedule (all-or-nothing: the caller's state is the
unchanged schedule). Hypotheses: nonnegative `t0` (a negative time raises
`PulseError` in `shifted` before the mergeability check) and internally
valid occupancies, which hold for every schedule and pulse the sources
construct. -/
theorem schedule_insert_atomic (sched : ScheduleE) (t0 : Int) (pulse : PulseE)
    (ht : 0 ≤ t0) (hp : pulse.occupancy.valid) (hs : sched.occupancy.valid) :
    (sched.occupancy.is_mergeable_with ⟨shiftSlots pulse.occupancy.timeslots t0⟩ = true →
      sched.insert t0 pulse = .ok
        ⟨sched.children ++ [(t0, pulse)],
          ⟨sched.occupancy.timeslots ++ shiftSlots pulse.occupancy.timeslots t0⟩⟩) ∧
    (sched.occupancy.is_mergeable_with ⟨shiftSlots pulse.occupancy.timeslots t0⟩ = false →
      sched.insert t0 pulse = .error (.scheduleError
        ("Fail to insert " ++ pulse.name ++ " at " ++ toString t0 ++ " due to overlap"))) := by
  have hshift : pulse.occupancy.shifted t0 = .ok ⟨shiftSlots pulse.occupancy.timeslots t0⟩ := by
    unfold TimeslotOccupancy.shifted
    rw [if_neg (by omega : ¬ t0 < 0)]
    unfold TimeslotOccupancy.make
    rw [show initFailsAux [] (shiftSlots pulse.occupancy.timeslots t0) = false from by
      rw [initFails_shiftSlots]; exact hp]
    simp
  have hsv : TimeslotOccupancy.valid ⟨shiftSlots pulse.occupancy.timeslots t0⟩ := by
    unfold TimeslotOccupancy.valid
    dsimp only
    rw [initFails_shiftSlots]
    exact hp
  constructor
  · intro hm
    unfold ScheduleE.insert
    rw [hshift]
    dsimp only
    rw [if_pos hm]
    unfold TimeslotOccupancy.merged
    rw [merge_valid sched.occupancy ⟨shiftSlots pulse.occupancy.timeslots t0⟩ hs hsv hm]
  · intro hm
    unfold ScheduleE.insert
    rw [hshift]
    dsimp only
    rw [if_neg (by rw [hm]; exact Bool.false_ne_true :
      ¬ sched.occupancy.is_mergeable_with ⟨shiftSlots pulse.occupancy.timeslots t0⟩ = true)]

/-- Claim C3 witness: inserting `pulseA` into the empty schedule at time 0
succeeds and commits child and occupancy; inserting it into `schedA` at
time 5 is rejected with the admission error, leaving no new schedule. -/
theorem schedule_insert_atomic_witness :
    emptySched.insert 0 pulseA = .ok ⟨[(0, pulseA)], ⟨[⟨⟨0, 10⟩, 0⟩]⟩⟩ ∧
    schedA.insert 5 pulseA = .error (.scheduleError
      ("Fail to insert A at 5 due to overlap")) :=
  ⟨(schedule_insert_atomic emptySched 0 pulseA (by decide)
      (show initFailsAux [] pulseA.occupancy.timeslots = false by decide)
      (show initFailsAux [] emptySched.occupancy.timeslots = false by decide)).1
      (by decide),
   (schedule_insert_atomic schedA 5 pulseA (by decide)
      (show initFailsAux [] pulseA.occupancy.timeslots = false by decide)
      (show initFailsAux [] schedA.occupancy.timeslots = false by decide)).2
      (by decide)⟩

/-- Claim C7: `Schedule.append(pulse)` has exactly the behavior of
`Schedule.insert(self.end_time(), pulse)` (the same new schedule on
success, failure exactly when the insert fails — only the error text is
append-specific), and `Schedule.end_time()` is the maximum of the direct
children's absolute end times, `0` for a childless schedule, so an empty
schedule has zero duration. -/
theorem append_insert_end_time (sched : ScheduleE) (pulse : PulseE) :
    (sched.append pulse).toOption = (sched.insert sched.end_time pulse).toOption ∧
    (sched.children = [] → sched.end_time = 0) ∧
    (∀ c ∈ sched.children, childEndTime c ≤ sched.end_time) ∧
    (sched.children ≠ [] → ∃ c ∈ sched.children, sched.end_time = childEndTime c) ∧
    (sched.children = [] → sched.duration = 0) := by
  have hz : sched.children = [] → sched.end_time = 0 := by
    intro h
    unfold ScheduleE.end_time
    rw [h]
    rfl
  refine ⟨?_, hz, ?_, ?_, fun h => hz h⟩
  · unfold ScheduleE.append
    rcases h : sched.insert sched.end_time pulse with e | s
    · rcases e with msg | msg <;> rfl
    · rfl
  · intro c hc
    rcases hch : sched.children with _ | ⟨c0, cs⟩
    · rw [hch] at hc
      cases hc
    · have he : sched.end_time = (cs.map childEndTime).foldl max (childEndTime c0) := by
        unfold ScheduleE.end_time
        rw [hch]
        rfl
      rw [he]
      rw [hch] at hc
      rcases List.mem_cons.mp hc with rfl | hc'
      · exact le_foldl_max _ _
      · exact mem_le_foldl_max _ _ _ (List.mem_map_of_mem childEndTime hc')
  · intro hne
    rcases hch : sched.children with _ | ⟨c0, cs⟩
    · exact absurd hch hne
    · have he : sched.end_time = (cs.map childEndTime).foldl max (childEndTime c0) := by
        unfold ScheduleE.end_time
        rw [hch]
        rfl
      rcases foldl_max_mem (cs.map childEndTime) (childEndTime c0) with h | h
      · refine ⟨c0, List.mem_cons_self c0 cs, ?_⟩
        rw [he, h]
      · rcases List.mem_map.mp h with ⟨c, hcmem, hce⟩
        refine ⟨c, List.mem_cons_of_mem c0 hcmem, ?_⟩
        rw [he, ← hce]

/-- Claim C7 witness: on the empty schedule, `append` agrees with `insert`
at `end_time`, `end_time` is 0 and the duration is 0; on `schedA`, the
single child's end time 10 is both a bound and attained. -/
theorem append_insert_end_time_witness :
    (emptySched.append pulseA).toOption
      = (emptySched.insert emptySched.end_time pulseA).toOption ∧
    emptySched.end_time = 0 ∧
    emptySched.duration = 0 ∧
    childEndTime (0, pulseA) ≤ schedA.end_time ∧
    (∃ c ∈ schedA.children, schedA.end_time = childEndTime c) :=
  ⟨(append_insert_end_time emptySched pulseA).1,
   (append_insert_end_time emptySched pulseA).2.1 rfl,
   (append_insert_end_time emptySched pulseA).2.2.2.2 rfl,
   (append_insert_end_time schedA pulseA).2.2.1 (0, pulseA)
      (List.mem_singleton.mpr rfl),
   (append_insert_end_time schedA pulseA).2.2.2.1 (by decide)⟩

/-- Claim C8: `ConditionalController.iter_tasks` yields every task exactly
once in order when the predicate holds of the property set at call time,
and yields nothing when it does not; the predicate is applied to the
property set passed at each call, so mutating the property set between two
calls changes the outcome accordingly (no caching). -/
theorem conditional_iter_tasks_iff (α σ : Type) (tasks : List α)
    (condition : σ → Bool) (property_set : σ) :
    (condition property_set = true →
      conditionalIterTasks tasks condition property_set = tasks) ∧
    (condition property_set = false →
      conditionalIterTasks tasks condition property_set = []) := by
  constructor <;> intro h <;> simp [conditionalIterTasks, h]

/-- Claim C8 witness: the same controller over property sets `0` and `1`
with predicate `n == 0` yields the tasks for the first and nothing for the
second. -/
theorem conditional_iter_tasks_iff_witness :
    conditionalIterTasks [1, 2] (fun n => n == 0) 0 = [1, 2] ∧
    conditionalIterTasks [1, 2] (fun n => n == 0) 1 = [] :=
  ⟨(conditional_iter_tasks_iff Nat Nat [1, 2] (fun n => n == 0) 0).1 rfl,
   (conditional_iter_tasks_iff Nat Nat [1, 2] (fun n => n == 0) 1).2 rfl⟩

/-- Claim C2 counterexample: with configured `max_iteration = 0` the
`range(0)` loop body never runs, so even with a predicate that would be
false after the first pass, `DoWhileController.iter_tasks` yields zero
repetitions and raises the convergence error — not one full repetition
with clean termination as the claim states for every configured
`max_iteration`. -/
theorem do_while_zero_iteration_cex :
    doWhileIterTasks [1] (fun _ => false) (some 0) =
      .error [] ("Maximum iteration reached. max_iteration=0") := rfl

/-- Claim C2 (amended): for every task sequence and configured
`max_iteration` `N` (default 1000 when the option is unset), an
always-true predicate yields exactly `N` full repetitions of the tasks
and then fails with the convergence error reporting the configured limit;
and provided `N ≥ 1`, a predicate that is false at the first check (after
the first pass) yields exactly one full repetition and terminates without
error. -/
theorem do_while_iteration_amended (α : Type) (tasks : List α) (options : Option Nat) :
    doWhileIterTasks tasks (fun _ => true) options =
      .error (repeatedTasks (options.getD 1000) tasks)
        ("Maximum iteration reached. max_iteration=" ++ toString (options.getD 1000)) ∧
    (1 ≤ options.getD 1000 →
      doWhileIterTasks tasks (fun _ => false) options = .ok tasks) := by
  constructor
  · unfold doWhileIterTasks
    rw [doWhileLoop_true]
    simp
  · intro h
    unfold doWhileIterTasks
    obtain ⟨n, hn⟩ : ∃ n, options.getD 1000 = n + 1 := ⟨options.getD 1000 - 1, by omega⟩
    rw [hn]
    rfl

/-- Claim C2 witness: with `max_iteration = 2` and one task, the
always-true predicate yields the task twice then raises reporting the
limit 2; the false predicate yields it once and terminates cleanly. -/
theorem do_while_iteration_amended_witness :
    doWhileIterTasks [7] (fun _ => true) (some 2) =
      .error [7, 7] ("Maximum iteration reached. max_iteration=2") ∧
    doWhileIterTasks [7] (fun _ => false) (some 2) = .ok [7] :=
  ⟨(do_while_iteration_amended Nat [7] (some 2)).1,
   (do_while_iteration_amended Nat [7] (some 2)).2 (by decide)⟩

/-- Claim C1 counterexample: with the built-in registration order
`hierarchy = ["condition", "do_while"]`, supplying both predicates to
`FlowController.controller_factory` does not return a `DoWhileController`
as the outermost controller: the reverse-hierarchy walk wraps `do_while`
first, so the outermost controller is the `ConditionalController`. -/
theorem factory_condition_outer_cex :
    (controller_factory [1, 2]
      [("condition", (fun _ => true : Nat → Bool)),
       ("do_while", (fun _ => true : Nat → Bool))]).isDoWhile = false := rfl

/-- Claim C1 (amended): with `hierarchy = ["condition", "do_while"]`,
calling `controller_factory` with a flat task list and both a condition
predicate and a do-while predicate returns a `ConditionalController` as
the strictly outermost controller, wrapping a `DoWhileController`, which
wraps the base linear controller holding the tasks. -/
theorem factory_nesting_amended (σ : Type) (passes : List Nat) (p q : σ → Bool) :
    controller_factory passes [("condition", p), ("do_while", q)] =
      .conditionalC [.doWhileC [.linear passes] q] p := rfl

/-- Claim C9: the class-loading loop wraps exactly the methods whose names
do not start with an underscore in `_replace_error`, which re-raises a
`PassManagerError` raised inside the method as a `TranspilerError`
carrying the original message text verbatim and passes every other
outcome (including other errors) through unmodified; underscore-prefixed
methods are left unwrapped, so a `PassManagerError` escaping them
propagates unmodified. -/
theorem replace_error_translation (α β : Type)
    (methods : List (String × (α → Except ExcE β)))
    (nm : String × (α → Except ExcE β)) (hmem : nm ∈ methods)
    (meth : α → Except ExcE β) (a : α) :
    (startsWithUnderscore nm.1 = true → nm ∈ wrapClassMethods methods) ∧
    (startsWithUnderscore nm.1 = false →
      (nm.1, replace_error nm.2) ∈ wrapClassMethods methods) ∧
    (∀ msg, meth a = .error (.passManagerError msg) →
      replace_error meth a = .error (.transpilerError msg)) ∧
    (∀ msg, meth a = .error (.transpilerError msg) →
      replace_error meth a = .error (.transpilerError msg)) ∧
    (∀ msg, meth a = .error (.otherError msg) →
      replace_error meth a = .error (.otherError msg)) ∧
    (∀ b, meth a = .ok b → replace_error meth a = .ok b) := by
  have hmm := List.mem_map_of_mem
    (fun nm => if startsWithUnderscore nm.1 then nm else (nm.1, replace_error nm.2)) hmem
  refine ⟨?_, ?_, ?_, ?_, ?_, ?_⟩
  · intro h
    simp only [h, if_true] at hmm
    exact hmm
  · intro h
    simp only [h, Bool.false_eq_true, if_false] at hmm
    exact hmm
  · intro msg h
    unfold replace_error
    rw [h]
  · intro msg h
    unfold replace_error
    rw [h]
  · intro msg h
    unfold replace_error
    rw [h]
  · intro b h
    unfold replace_error
    rw [h]

/-- Claim C9 witness: in a method table holding the public method `run`
(which raises `PassManagerError("boom")`) and the private method
`_finalize`, the wrapping loop wraps `run` and leaves `_finalize` as is,
and the wrapped `run` raises `TranspilerError("boom")`. -/
theorem replace_error_translation_witness :
    ("run", replace_error pmFail) ∈ wrapClassMethods [("run", pmFail), ("_finalize", pmFail)] ∧
    ("_finalize", pmFail) ∈ wrapClassMethods [("run", pmFail), ("_finalize", pmFail)] ∧
    replace_error pmFail 0 = .error (.transpilerError ("boom")) := by
  have h1 := replace_error_translation Nat Nat [("run", pmFail), ("_finalize", pmFail)]
    ("run", pmFail) (List.mem_cons_self _ _) pmFail 0
  have h2 := replace_error_translation Nat Nat [("run", pmFail), ("_finalize", pmFail)]
    ("_finalize", pmFail) (List.mem_cons_of_mem _ (List.mem_cons_self _ _)) pmFail 0
  exact ⟨h1.2.1 rfl, h2.1 rfl, h1.2.2.1 ("boom") rfl⟩
